import Mathlib

/-!
Shallow embedding of `openvswitch/datapath/dpdk/ovdk_args.c`.

C strings are modelled as `List Char` (the terminating NUL is the end of the
list).  Machine integers are modelled as `Nat` / `Int`, with explicit
reductions modulo `2 ^ 32` where the C code narrows to `uint32_t` and
clamping at `ULONG_MAX` where `strtoul` saturates; the platform is LP64
(`unsigned long` is 64 bits wide), as on the x86-64 Linux targets of DPDK.

The libc functions used by the source are modelled after the C standard:
`strtoul` skips whitespace, accepts one optional sign, accepts an optional
`0x` / `0X` prefix in base 16, converts the longest run of digits, returns
`ULONG_MAX` on overflow, negates modulo `2 ^ 64` under a minus sign, and
reports through `end` the first unconsumed character (the original pointer
when no conversion was performed); `atoi` is the permissive decimal
conversion that yields `0` when no digits are found and ignores trailing
characters.

`getopt_long` scanning with option string `"p:v:J:"` and the two long
options `stats_int` / `stats_core` is modelled by `parseLoop`: one option is
handled per step, in attached (`-pARG`, `--opt=ARG`) or separated argument
form; `--` terminates the scan; non-option arguments are skipped (GNU
permutation moves them after the options, where the loop never looks at
them); unknown options and recognized options missing their required
argument yield the `?` branch exactly as in glibc, with `optopt` holding the
short option character and `0` for long options, in which case the source
prints the offending word `argv[optind - 1]` itself.  Long-option names are
resolved with glibc's abbreviation matching (`matchLongOpt`): an exact
match, else the first table entry the name is a prefix of, so `--stats_c`
selects `stats_core` and `--stats_i` (or even `--stats_`) selects
`stats_int`.  `rte_exit` (process termination) is
modelled by the `ParseResult.err` constructor; the file-scope configuration
variables of the source are gathered into the `AppConfig` record, and the
compiled-in default `OVDK_DEFAULT_MAX_FRAME_SIZE` (defined in a header that
is not part of this snapshot) is an explicit parameter `dflt` of the
embedding, so every theorem holds for any value of that constant.
-/

/-- DPDK `rte_log.h` log level `RTE_LOG_ERR`, the default of `log_level`
(`static unsigned log_level = RTE_LOG_ERR`). -/
def RTE_LOG_ERR : Nat := 4

/-- DPDK `rte_log.h` log level `RTE_LOG_DEBUG`, the largest verbosity
ordinal accepted by `parse_log_level`. -/
def RTE_LOG_DEBUG : Nat := 8

/-- `ULONG_MAX` on an LP64 platform: `2 ^ 64 - 1`. -/
def ULONG_MAX : Nat := 2 ^ 64 - 1

/-- The whitespace test applied by `strtoul` / `atoi` (C locale `isspace`). -/
def isSpace (c : Char) : Bool :=
  c == ' ' || c == '\t' || c == '\n' || c == '\x0b' || c == '\x0c' || c == '\r'

/-- Digit value of the character with code point `n`, before the base
check, following the `strtoul` digit set: `0`–`9`, then letters of either
case counting from 10.  ASCII codes: `0` = 48, `9` = 57, `A` = 65,
`Z` = 90, `a` = 97, `z` = 122. -/
def digitRaw (n : Nat) : Option Nat :=
  if 48 ≤ n ∧ n ≤ 57 then some (n - 48)
  else if 65 ≤ n ∧ n ≤ 90 then some (n - 65 + 10)
  else if 97 ≤ n ∧ n ≤ 122 then some (n - 97 + 10)
  else none

/-- Value of character `c` as a digit in base `base`. -/
def digitVal (base : Nat) (c : Char) : Option Nat :=
  match digitRaw c.toNat with
  | some d => if d < base then some d else none
  | none => none

/-- Skip the leading whitespace of the subject string (`strtoul` step 1). -/
def dropSpace : List Char → List Char
  | [] => []
  | c :: cs => if isSpace c then dropSpace cs else c :: cs

/-- Consume one optional sign character; the `Bool` is the negation flag
(`strtoul` step 2). -/
def splitSign (s : List Char) : Bool × List Char :=
  match s with
  | [] => (false, [])
  | c :: cs =>
    if c = '-' then (true, cs)
    else if c = '+' then (false, cs)
    else (false, c :: cs)

/-- Convert the longest run of base-`base` digits, left to right, starting
from accumulator `acc`; returns the (unbounded) value together with the
first unconsumed character onward. -/
def parseDigits (base : Nat) (acc : Nat) : List Char → Nat × List Char
  | [] => (acc, [])
  | c :: cs =>
    match digitVal base c with
    | some d => parseDigits base (acc * base + d) cs
    | none => (acc, c :: cs)

/-- Does the string start with a digit of base `base`? -/
def startsDigit (base : Nat) (s : List Char) : Bool :=
  match s with
  | [] => false
  | c :: _ => (digitVal base c).isSome

/-- Final value computation of `strtoul`: clamp to `ULONG_MAX` on overflow
(glibc returns `ULONG_MAX` unnegated in that case, setting `errno`);
otherwise negate modulo `2 ^ 64` when a minus sign was consumed. -/
def applySign (neg : Bool) (v : Nat) : Nat :=
  if v ≤ ULONG_MAX then
    (if neg then (2 ^ 64 - v) % 2 ^ 64 else v)
  else ULONG_MAX

/-- `strtoul(s, &end, base)` on an LP64 platform, for the two bases used by
the source (10 and 16).  Returns the converted value and the suffix that
`end` points to.  When no conversion can be performed the result is `0` and
`end` is the original `s`.  A bare `0x` with no following hex digit (base
16) converts the subject sequence `"0"` and leaves `end` on the `x`. -/
def strtoul (base : Nat) (s : List Char) : Nat × List Char :=
  let s1 := dropSpace s
  let p := splitSign s1
  let neg := p.1
  let s2 := p.2
  if base = 16 ∧ (s2.take 2 = ['0', 'x'] ∨ s2.take 2 = ['0', 'X']) then
    let r := s2.drop 2
    if startsDigit 16 r then
      let q := parseDigits 16 0 r
      (applySign neg q.1, q.2)
    else
      (0, s2.drop 1)
  else
    if startsDigit base s2 then
      let q := parseDigits base 0 s2
      (applySign neg q.1, q.2)
    else
      (0, s)

/-- `atoi(s)`: permissive decimal conversion — skip whitespace, one optional
sign, then the longest digit run; `0` when no digits are present, trailing
characters ignored.  (Overflow of the C `int` result is undefined behaviour
in C and is not modelled; every claim uses small values.) -/
def atoi (s : List Char) : Int :=
  let p := splitSign (dropSpace s)
  let v := (parseDigits 10 0 p.2).1
  if p.1 then -(v : Int) else (v : Int)

/-- `parse_portmask` (ovdk_args.c lines 169–182): convert in base 16 and
reject the empty string and any unconsumed suffix; `some v` models the
assignment `port_mask = num` together with `return 0`, `none` models
`return -1`.  (`end == NULL` never holds after `strtoul` and is dropped.) -/
def parse_portmask (portmask : List Char) : Option Nat :=
  let q := strtoul 16 portmask
  if portmask = [] ∨ q.2 ≠ [] then none else some q.1

/-- `parse_str_to_uint32t` (ovdk_args.c lines 188–203): reject the empty
string, any unconsumed suffix, and a converted value of exactly zero — the
zero test is applied to the `unsigned long` value *before* the narrowing
cast `(uint32_t) temp`, which reduces modulo `2 ^ 32`. -/
def parse_str_to_uint32t (str : List Char) : Option Nat :=
  if str = [] then none
  else
    let q := strtoul 10 str
    if q.2 ≠ [] ∨ q.1 = 0 then none
    else some (q.1 % 2 ^ 32)

/-- `parse_log_level` (ovdk_args.c lines 208–226): convert in base 10 and
reject the empty string, any unconsumed suffix, zero, and values above
`RTE_LOG_DEBUG`; the accepted value is stored into the `unsigned` (32-bit)
variable `log_level`, hence the modulo (an identity, as the value is at
most 8). -/
def parse_log_level (level_arg : List Char) : Option Nat :=
  if level_arg = [] then none
  else
    let q := strtoul 10 level_arg
    if q.2 ≠ [] ∨ q.1 = 0 ∨ q.1 > RTE_LOG_DEBUG then none
    else some (q.1 % 2 ^ 32)

/-- The file-scope configuration variables of ovdk_args.c. -/
structure AppConfig where
  port_mask : Nat
  log_level : Nat
  stats_interval : Int
  stats_core : Int
  max_frame_size : Nat
deriving Repr, DecidableEq

/-- The initial values of the file-scope variables; `dflt` stands for the
compiled-in constant `OVDK_DEFAULT_MAX_FRAME_SIZE`. -/
def initConfig (dflt : Nat) : AppConfig :=
  { port_mask := 0
    log_level := RTE_LOG_ERR
    stats_interval := 0
    stats_core := -1
    max_frame_size := dflt }

/-- The diagnostic printed by the `rte_exit` call that terminates the
process, one constructor per `rte_exit` site in
`ovdk_args_parse_app_args`. -/
inductive FatalDiag where
  | invalidOptionSpecified (c : Char)
  | invalidLogLevel (arg : List Char)
  | invalidOptChar (c : Char)
  | invalidLongOpt (arg : List Char)
deriving Repr, DecidableEq

/-- Observable events of a parse run: one `set` event per assignment to a
file-scope variable (carrying the option argument it was converted from and
the value written), one `jRejected` event for the `-J` validation-error
path, and one `fatal` event for each `rte_exit` site. -/
inductive PEvent where
  | setPortMask (arg : List Char) (v : Nat)
  | setLogLevel (arg : List Char) (v : Nat)
  | setStatsInterval (arg : List Char) (v : Int)
  | setStatsCore (arg : List Char) (v : Int)
  | setMaxFrameSize (arg : List Char) (v : Nat)
  | jRejected (arg : List Char)
  | fatal (d : FatalDiag)
deriving Repr, DecidableEq

/-- Outcome of `ovdk_args_parse_app_args`: `ok` is `return 0`, `frameErr`
is the `return -1` of the `-J` branch, `err` is an `rte_exit` (the process
terminates and the function does not return).  The `Bool` records that
`ovdk_args_usage` was called before leaving. -/
inductive ParseResult where
  | ok (cfg : AppConfig)
  | err (cfg : AppConfig) (usagePrinted : Bool) (diag : FatalDiag)
  | frameErr (cfg : AppConfig) (usagePrinted : Bool)
deriving Repr, DecidableEq

/-- The configuration state at the moment the run ends. -/
def resultConfig : ParseResult → AppConfig
  | .ok cfg => cfg
  | .err cfg _ _ => cfg
  | .frameErr cfg _ => cfg

/-- The C return value of `ovdk_args_parse_app_args`: `none` when the
process was terminated by `rte_exit` instead of returning. -/
def retOf : ParseResult → Option Int
  | .ok _ => some 0
  | .err _ _ _ => none
  | .frameErr _ _ => some (-1)

/-- One step of option handling: either the loop continues with an updated
configuration, or it halts (fatal exit or the `-J` error return). -/
inductive StepOut where
  | cont (cfg : AppConfig) (evs : List PEvent)
  | halt (r : ParseResult) (evs : List PEvent)
deriving Repr, DecidableEq

/-- `PARAM_STATS_INTERVAL` of ovdk_args.c. -/
def PARAM_STATS_INTERVAL : List Char := "stats_int".toList

/-- `PARAM_STATS_CORE` of ovdk_args.c. -/
def PARAM_STATS_CORE : List Char := "stats_core".toList

/-- Handling of one short option `c ∈ {p, v, J}` with argument `optarg`:
the three `case` arms of the `switch` in `ovdk_args_parse_app_args`
(lines 120–139). -/
def shortOpt (cfg : AppConfig) (c : Char) (optarg : List Char) : StepOut :=
  if c = 'p' then
    match parse_portmask optarg with
    | some v => .cont { cfg with port_mask := v } [.setPortMask optarg v]
    | none => .halt (.err cfg true (.invalidOptionSpecified c)) [.fatal (.invalidOptionSpecified c)]
  else if c = 'v' then
    match parse_log_level optarg with
    | some v => .cont { cfg with log_level := v } [.setLogLevel optarg v]
    | none => .halt (.err cfg true (.invalidLogLevel optarg)) [.fatal (.invalidLogLevel optarg)]
  else if c = 'J' then
    match parse_str_to_uint32t optarg with
    | some v => .cont { cfg with max_frame_size := v } [.setMaxFrameSize optarg v]
    | none => .halt (.frameErr cfg true) [.jRejected optarg]
  else
    .halt (.err cfg true (.invalidOptChar c)) [.fatal (.invalidOptChar c)]

/-- Handling of one long option (the `case 0` arm, lines 140–147): the
matched long-option name is compared with `strncmp` against
`PARAM_STATS_INTERVAL` and `PARAM_STATS_CORE` — an exact-match dispatch,
since `option_index` always designates one of the two table entries — and
the argument is converted with `atoi` and stored unconditionally. -/
def longOpt (cfg : AppConfig) (name optarg : List Char) : StepOut :=
  if name = PARAM_STATS_INTERVAL then
    .cont { cfg with stats_interval := atoi optarg } [.setStatsInterval optarg (atoi optarg)]
  else if name = PARAM_STATS_CORE then
    .cont { cfg with stats_core := atoi optarg } [.setStatsCore optarg (atoi optarg)]
  else
    .halt (.err cfg true (.invalidLongOpt ('-' :: '-' :: name))) [.fatal (.invalidLongOpt ('-' :: '-' :: name))]

/-- Split a long-option word (after the leading `--`) at the first `=`:
the name and, when `=` is present, the attached argument. -/
def splitEq : List Char → List Char × Option (List Char)
  | [] => ([], none)
  | c :: cs =>
    if c = '=' then ([], some cs)
    else
      let p := splitEq cs
      (c :: p.1, p.2)

/-- glibc `getopt_long` table lookup for a long-option name, including
abbreviation matching: the scan over `lgopts` takes an exact match, and
otherwise the *first* table entry of which the given name is a prefix
(`strncmp (p->name, nextchar, namelen)`).  The ambiguity error cannot
trigger for this table: it requires two prefix-matched entries that differ
in `has_arg`, `flag` or `val`, and both entries here are
`required_argument` / `NULL` / `0`.  Since neither table name is a prefix
of the other, exact-match-first collapses to trying `stats_int` (the first
entry) and then `stats_core`; `none` is glibc's unknown-option result. -/
def matchLongOpt (name : List Char) : Option (List Char) :=
  if name.isPrefixOf PARAM_STATS_INTERVAL then some PARAM_STATS_INTERVAL
  else if name.isPrefixOf PARAM_STATS_CORE then some PARAM_STATS_CORE
  else none

/-- A recognized option whose required argument has not yet been read:
`getopt_long` will take the next argument word as its `optarg`, or report
it missing when the vector is exhausted (for a long option, the diagnostic
of the source prints the original `--`-word itself, kept here). -/
inductive Pending where
  | short (c : Char)
  | long (name : List Char) (word : List Char)
deriving Repr, DecidableEq

/-- Hand the next argument word to the option that is waiting for it. -/
def applyPending (cfg : AppConfig) (p : Pending) (w : List Char) : StepOut :=
  match p with
  | .short c => shortOpt cfg c w
  | .long name _ => longOpt cfg name w

/-- The `getopt_long` loop of `ovdk_args_parse_app_args` (lines 117–158)
over the argument words after `argv[0]`, threading the configuration state
and collecting the events of the run.  One argument word is consumed per
step; a recognized option without an attached argument becomes `pending`
and takes the following word, exactly as `getopt_long` advances `optind`.
An argument word is an option word exactly when it starts with `-` and has
at least two characters; `--` terminates the scan (the loop returns 0);
other words are non-option arguments, skipped by GNU permutation.  A
`--`-word is looked up through `matchLongOpt` (exact or abbreviated
name); the table name it returns is what the `case 0` code compares with
`strncmp`, so `longOpt` dispatches on it. -/
def parseLoop (cfg : AppConfig) (pending : Option Pending) :
    List (List Char) → ParseResult × List PEvent
  | [] =>
    match pending with
    | none => (.ok cfg, [])
    | some (.short c) => (.err cfg true (.invalidOptChar c), [.fatal (.invalidOptChar c)])
    | some (.long _ w) => (.err cfg true (.invalidLongOpt w), [.fatal (.invalidLongOpt w)])
  | w :: rest =>
    match pending with
    | some p =>
      match applyPending cfg p w with
      | .cont cfg2 evs =>
        let q := parseLoop cfg2 none rest
        (q.1, evs ++ q.2)
      | .halt r evs => (r, evs)
    | none =>
      match w with
      | [] => parseLoop cfg none rest
      | c0 :: ctail =>
        if c0 = '-' then
          match ctail with
          | [] => parseLoop cfg none rest
          | c1 :: ctail2 =>
            if c1 = '-' then
              match ctail2 with
              | [] => (.ok cfg, [])
              | _ :: _ =>
                match matchLongOpt (splitEq ctail2).1 with
                | some tname =>
                  match (splitEq ctail2).2 with
                  | some v =>
                    match longOpt cfg tname v with
                    | .cont cfg2 evs =>
                      let q := parseLoop cfg2 none rest
                      (q.1, evs ++ q.2)
                    | .halt r evs => (r, evs)
                  | none => parseLoop cfg (some (.long tname ('-' :: '-' :: ctail2))) rest
                | none =>
                  (.err cfg true (.invalidLongOpt ('-' :: '-' :: ctail2)),
                   [.fatal (.invalidLongOpt ('-' :: '-' :: ctail2))])
            else
              if c1 = 'p' ∨ c1 = 'v' ∨ c1 = 'J' then
                match ctail2 with
                | _ :: _ =>
                  match shortOpt cfg c1 ctail2 with
                  | .cont cfg2 evs =>
                    let q := parseLoop cfg2 none rest
                    (q.1, evs ++ q.2)
                  | .halt r evs => (r, evs)
                | [] => parseLoop cfg (some (.short c1)) rest
              else
                (.err cfg true (.invalidOptChar c1), [.fatal (.invalidOptChar c1)])
        else parseLoop cfg none rest

/-- `ovdk_args_parse_app_args` (lines 104–161): run the option loop on the
argument words after the program name, starting from the default
configuration with compiled-in frame-size default `dflt`. -/
def ovdk_args_parse_app_args (dflt : Nat) (args : List (List Char)) :
    ParseResult × List PEvent :=
  parseLoop (initConfig dflt) none args

/-- Accessor `ovdk_args_get_portmask` (lines 228–231). -/
def ovdk_args_get_portmask (cfg : AppConfig) : Nat := cfg.port_mask

/-- Accessor `ovdk_args_get_log_level` (lines 233–236). -/
def ovdk_args_get_log_level (cfg : AppConfig) : Nat := cfg.log_level

/-- Accessor `ovdk_args_get_stats_interval` (lines 238–241). -/
def ovdk_args_get_stats_interval (cfg : AppConfig) : Int := cfg.stats_interval

/-- Accessor `ovdk_args_get_stats_core` (lines 243–246). -/
def ovdk_args_get_stats_core (cfg : AppConfig) : Int := cfg.stats_core

/-- Accessor `ovdk_args_get_max_frame_size` (lines 248–251). -/
def ovdk_args_get_max_frame_size (cfg : AppConfig) : Nat := cfg.max_frame_size

/-- Little-endian base-10 digits of `n`, with explicit structural fuel
(`fuel = n` suffices, as `n / 10 < n` for positive `n`). -/
def decDigitsRev (fuel n : Nat) : List Nat :=
  match fuel with
  | 0 => []
  | f + 1 => if n = 0 then [] else n % 10 :: decDigitsRev f (n / 10)

/-- The canonical decimal string for `n` (most significant digit first,
no sign, no leading zeros). -/
def decStr (n : Nat) : List Char :=
  if n = 0 then ['0'] else (decDigitsRev n n).reverse.map Nat.digitChar

/-- Positional value of a digit string in base `base` (the "numeric value
of `s` interpreted in base `base`"). -/
def digitsFold (base : Nat) (s : List Char) : Nat :=
  s.foldl (fun a c => a * base + (digitVal base c).getD 0) 0

/-- Is `s` a nonempty string of base-16 digits ("a valid hexadecimal
string")? -/
def isHexStr (s : List Char) : Bool :=
  !s.isEmpty && s.all fun c => (digitVal 16 c).isSome

/-- Events marking that a parse run left the success path. -/
def isFailEvent : PEvent → Bool
  | .jRejected _ => true
  | .fatal _ => true
  | _ => false

/-- The validation contract of one event: every value written into a
configuration field is exactly the value its own validator produced on the
recorded option argument (for the two stats fields, the `atoi` conversion,
which never rejects), and a `jRejected` event records an argument the
frame-size validator rejected. -/
def gatingProp : PEvent → Prop
  | .setPortMask s v => parse_portmask s = some v
  | .setLogLevel s v => parse_log_level s = some v
  | .setMaxFrameSize s v => parse_str_to_uint32t s = some v
  | .setStatsInterval s v => v = atoi s
  | .setStatsCore s v => v = atoi s
  | .jRejected s => parse_str_to_uint32t s = none
  | .fatal _ => True

/-- The successive values written into `port_mask` during a run. -/
def pmValues (evs : List PEvent) : List Nat :=
  evs.filterMap fun e =>
    match e with
    | .setPortMask _ v => some v
    | _ => none

/-- Number of positions at which a value sequence moves from the default
`d` to a different value. -/
def countLeaveDefault (d : Nat) : List Nat → Nat
  | x :: y :: rest =>
    (if x = d ∧ y ≠ d then 1 else 0) + countLeaveDefault d (y :: rest)
  | _ => 0

/-- The events carried by a step outcome. -/
def stepEvents : StepOut → List PEvent
  | .cont _ evs => evs
  | .halt _ evs => evs

/-! ### Facts about digits, whitespace and signs -/

theorem digitRaw_none_of_lt (n : Nat) (h : n < 48) : digitRaw n = none := by
  unfold digitRaw
  rw [if_neg (by omega), if_neg (by omega), if_neg (by omega)]

theorem digitVal_none_of_lt (b : Nat) (c : Char) (h : c.toNat < 48) :
    digitVal b c = none := by
  unfold digitVal
  rw [digitRaw_none_of_lt _ h]

theorem toNat_ge_of_digit (b : Nat) (c : Char) (h : (digitVal b c).isSome = true) :
    48 ≤ c.toNat := by
  by_contra hlt
  push_neg at hlt
  rw [digitVal_none_of_lt b c hlt] at h
  exact absurd h (by simp)

theorem isSpace_eq_true_iff (c : Char) :
    isSpace c = true ↔
      c = ' ' ∨ c = '\t' ∨ c = '\n' ∨ c = '\x0b' ∨ c = '\x0c' ∨ c = '\r' := by
  simp [isSpace, Bool.or_eq_true, beq_iff_eq]
  tauto

theorem isSpace_false_of_digit (b : Nat) (c : Char) (h : (digitVal b c).isSome = true) :
    isSpace c = false := by
  have h48 := toNat_ge_of_digit b c h
  cases hsp : isSpace c
  · rfl
  · exfalso
    rcases (isSpace_eq_true_iff c).mp hsp with rfl | rfl | rfl | rfl | rfl | rfl <;>
      exact absurd h48 (by decide)

theorem ne_dash_of_digit (b : Nat) (c : Char) (h : (digitVal b c).isSome = true) :
    c ≠ '-' := by
  intro hc
  subst hc
  exact absurd (toNat_ge_of_digit b '-' h) (by decide)

theorem ne_plus_of_digit (b : Nat) (c : Char) (h : (digitVal b c).isSome = true) :
    c ≠ '+' := by
  intro hc
  subst hc
  exact absurd (toNat_ge_of_digit b '+' h) (by decide)

theorem dropSpace_cons_of_not_space (c : Char) (cs : List Char) (h : isSpace c = false) :
    dropSpace (c :: cs) = c :: cs := by
  simp [dropSpace, h]

theorem splitSign_cons_of_plain (c : Char) (cs : List Char) (h1 : c ≠ '-') (h2 : c ≠ '+') :
    splitSign (c :: cs) = (false, c :: cs) := by
  simp [splitSign, h1, h2]

theorem parseDigits_all (b : Nat) :
    ∀ (l : List Char), (∀ c ∈ l, (digitVal b c).isSome = true) → ∀ acc : Nat,
      parseDigits b acc l =
        (l.foldl (fun a c => a * b + (digitVal b c).getD 0) acc, []) := by
  intro l
  induction l with
  | nil => intro _ acc; rfl
  | cons c cs ih =>
    intro h acc
    obtain ⟨d, hd⟩ := Option.isSome_iff_exists.mp (h c (by simp))
    simp only [parseDigits, hd, List.foldl_cons, Option.getD_some]
    exact ih (fun x hx => h x (by simp [hx])) (acc * b + d)

theorem strtoul_digits (b : Nat) (hb : b = 10 ∨ b = 16) (l : List Char) (hne : l ≠ [])
    (h : ∀ c ∈ l, (digitVal b c).isSome = true) :
    strtoul b l = (applySign false (digitsFold b l), []) := by
  obtain ⟨c, cs, rfl⟩ := List.exists_cons_of_ne_nil hne
  have hc := h c (by simp)
  have h1 : dropSpace (c :: cs) = c :: cs :=
    dropSpace_cons_of_not_space c cs (isSpace_false_of_digit b c hc)
  have h2 : splitSign (c :: cs) = (false, c :: cs) :=
    splitSign_cons_of_plain c cs (ne_dash_of_digit b c hc) (ne_plus_of_digit b c hc)
  have hx : ¬(b = 16 ∧ ((c :: cs).take 2 = ['0', 'x'] ∨ (c :: cs).take 2 = ['0', 'X'])) := by
    rintro ⟨rfl, hor⟩
    rcases hor with ht | ht
    · have hm : 'x' ∈ (c :: cs).take 2 := by rw [ht]; simp
      exact absurd (h 'x' (List.take_subset 2 (c :: cs) hm)) (by decide)
    · have hm : 'X' ∈ (c :: cs).take 2 := by rw [ht]; simp
      exact absurd (h 'X' (List.take_subset 2 (c :: cs) hm)) (by decide)
  have hsd : startsDigit b (c :: cs) = true := by simp [startsDigit, hc]
  simp only [strtoul, h1, h2, hsd, if_true]
  rw [if_neg hx]
  simp only [parseDigits_all b (c :: cs) h 0, digitsFold]

/-! ### The canonical decimal string and its round trip through `strtoul` -/

theorem digitVal_digitChar : ∀ d < 10, digitVal 10 (Nat.digitChar d) = some d := by
  decide

theorem decDigitsRev_lt : ∀ (f n d : Nat), d ∈ decDigitsRev f n → d < 10 := by
  intro f
  induction f with
  | zero => intro n d h; simp [decDigitsRev] at h
  | succ f ih =>
    intro n d h
    by_cases hn : n = 0
    · simp [decDigitsRev, hn] at h
    · simp only [decDigitsRev, if_neg hn, List.mem_cons] at h
      rcases h with rfl | h
      · omega
      · exact ih _ _ h

theorem decDigitsRev_foldr : ∀ (f n : Nat), n ≤ f →
    (decDigitsRev f n).foldr (fun d a => a * 10 + d) 0 = n := by
  intro f
  induction f with
  | zero =>
    intro n h
    have : n = 0 := by omega
    subst this
    rfl
  | succ f ih =>
    intro n h
    by_cases hn : n = 0
    · subst hn; rfl
    · simp only [decDigitsRev, if_neg hn, List.foldr_cons]
      rw [ih (n / 10) (by omega)]
      omega

theorem decStr_all_digits (n : Nat) : ∀ c ∈ decStr n, (digitVal 10 c).isSome = true := by
  intro c hc
  unfold decStr at hc
  by_cases hn : n = 0
  · rw [if_pos hn] at hc
    simp at hc
    subst hc
    decide
  · rw [if_neg hn] at hc
    simp only [List.mem_map, List.mem_reverse] at hc
    obtain ⟨d, hd, rfl⟩ := hc
    rw [digitVal_digitChar d (decDigitsRev_lt n n d hd)]
    rfl

theorem decStr_ne_nil (n : Nat) : decStr n ≠ [] := by
  unfold decStr
  by_cases hn : n = 0
  · simp [hn]
  · rw [if_neg hn]
    obtain ⟨m, rfl⟩ := Nat.exists_eq_succ_of_ne_zero hn
    simp only [ne_eq, List.map_eq_nil_iff, List.reverse_eq_nil_iff]
    simp [decDigitsRev]

theorem foldl_digitChar (l : List Nat) (h : ∀ d ∈ l, d < 10) (acc : Nat) :
    l.foldl (fun a d => a * 10 + (digitVal 10 (Nat.digitChar d)).getD 0) acc =
      l.foldl (fun a d => a * 10 + d) acc := by
  induction l generalizing acc with
  | nil => rfl
  | cons d ds ih =>
    simp only [List.foldl_cons]
    rw [digitVal_digitChar d (h d (by simp)), Option.getD_some]
    exact ih (fun x hx => h x (by simp [hx])) _

theorem digitsFold_decStr (n : Nat) (hn : 0 < n) : digitsFold 10 (decStr n) = n := by
  unfold digitsFold decStr
  rw [if_neg (by omega : ¬n = 0)]
  rw [List.foldl_map]
  rw [foldl_digitChar _ (fun d hd => decDigitsRev_lt n n d (List.mem_reverse.mp hd)) 0]
  rw [List.foldl_reverse]
  exact decDigitsRev_foldr n n (le_refl n)

theorem applySign_false_of_le (n : Nat) (h : n ≤ ULONG_MAX) : applySign false n = n := by
  simp [applySign, h]

theorem strtoul_decStr (n : Nat) (hn : 0 < n) :
    strtoul 10 (decStr n) = (applySign false n, []) := by
  rw [strtoul_digits 10 (Or.inl rfl) (decStr n) (decStr_ne_nil n) (decStr_all_digits n)]
  rw [digitsFold_decStr n hn]

theorem parse_str_to_uint32t_decStr (n : Nat) (h1 : 0 < n) (h2 : n ≤ ULONG_MAX) :
    parse_str_to_uint32t (decStr n) = some (n % 2 ^ 32) := by
  have hs := strtoul_decStr n h1
  rw [applySign_false_of_le n h2] at hs
  simp only [parse_str_to_uint32t, hs, if_neg (decStr_ne_nil n)]
  simp [Nat.pos_iff_ne_zero.mp h1]

theorem parse_log_level_decStr (n : Nat) (h1 : 1 ≤ n) (h2 : n ≤ 8) :
    parse_log_level (decStr n) = some n := by
  have hs := strtoul_decStr n (by omega)
  rw [applySign_false_of_le n (by unfold ULONG_MAX; omega)] at hs
  simp only [parse_log_level, hs, if_neg (decStr_ne_nil n)]
  have : ¬([] ≠ ([] : List Char) ∨ n = 0 ∨ n > RTE_LOG_DEBUG) := by
    unfold RTE_LOG_DEBUG
    simp
    omega
  rw [if_neg this]
  rw [Nat.mod_eq_of_lt (by omega)]

/-! ### Shape lemmas for one option-handling step -/

theorem shortOpt_gating (cfg : AppConfig) (c : Char) (a : List Char) :
    ∀ e ∈ stepEvents (shortOpt cfg c a), gatingProp e := by
  unfold shortOpt
  split_ifs with h1 h2 h3
  · cases hpp : parse_portmask a <;> simp_all [stepEvents, gatingProp]
  · cases hpp : parse_log_level a <;> simp_all [stepEvents, gatingProp]
  · cases hpp : parse_str_to_uint32t a <;> simp_all [stepEvents, gatingProp]
  · simp [stepEvents, gatingProp]

theorem longOpt_gating (cfg : AppConfig) (name a : List Char) :
    ∀ e ∈ stepEvents (longOpt cfg name a), gatingProp e := by
  unfold longOpt
  split_ifs with h1 h2 <;> simp [stepEvents, gatingProp]

theorem shortOpt_cont_nofail (cfg : AppConfig) (c : Char) (a : List Char)
    (cfg2 : AppConfig) (evs : List PEvent) (h : shortOpt cfg c a = StepOut.cont cfg2 evs) :
    ∀ e ∈ evs, isFailEvent e = false := by
  unfold shortOpt at h
  split_ifs at h with h1 h2 h3
  · cases hpp : parse_portmask a <;> rw [hpp] at h <;> cases h <;> simp [isFailEvent]
  · cases hpp : parse_log_level a <;> rw [hpp] at h <;> cases h <;> simp [isFailEvent]
  · cases hpp : parse_str_to_uint32t a <;> rw [hpp] at h <;> cases h <;> simp [isFailEvent]

theorem longOpt_cont_nofail (cfg : AppConfig) (name a : List Char)
    (cfg2 : AppConfig) (evs : List PEvent) (h : longOpt cfg name a = StepOut.cont cfg2 evs) :
    ∀ e ∈ evs, isFailEvent e = false := by
  unfold longOpt at h
  split_ifs at h with h1 h2 <;> cases h <;> simp [isFailEvent]

theorem shortOpt_halt_shape (cfg : AppConfig) (c : Char) (a : List Char)
    (r : ParseResult) (evs : List PEvent) (h : shortOpt cfg c a = StepOut.halt r evs) :
    (∃ dg, r = ParseResult.err cfg true dg ∧ evs = [PEvent.fatal dg]) ∨
      (r = ParseResult.frameErr cfg true ∧ evs = [PEvent.jRejected a] ∧
        parse_str_to_uint32t a = none) := by
  unfold shortOpt at h
  split_ifs at h with h1 h2 h3
  · cases hpp : parse_portmask a <;> rw [hpp] at h <;> cases h
    exact Or.inl ⟨_, rfl, rfl⟩
  · cases hpp : parse_log_level a <;> rw [hpp] at h <;> cases h
    exact Or.inl ⟨_, rfl, rfl⟩
  · cases hpp : parse_str_to_uint32t a <;> rw [hpp] at h <;> cases h
    exact Or.inr ⟨rfl, rfl, rfl⟩
  · cases h
    exact Or.inl ⟨_, rfl, rfl⟩

theorem longOpt_halt_shape (cfg : AppConfig) (name a : List Char)
    (r : ParseResult) (evs : List PEvent) (h : longOpt cfg name a = StepOut.halt r evs) :
    ∃ dg, r = ParseResult.err cfg true dg ∧ evs = [PEvent.fatal dg] := by
  unfold longOpt at h
  split_ifs at h with h1 h2 <;> cases h
  exact ⟨_, rfl, rfl⟩

/-! ### Unfolding equations for the option loop -/

theorem parseLoop_nil_none (cfg : AppConfig) : parseLoop cfg none [] = (.ok cfg, []) := rfl

theorem parseLoop_nil_short (cfg : AppConfig) (c : Char) :
    parseLoop cfg (some (.short c)) [] =
      (.err cfg true (.invalidOptChar c), [.fatal (.invalidOptChar c)]) := rfl

theorem parseLoop_nil_long (cfg : AppConfig) (name w : List Char) :
    parseLoop cfg (some (.long name w)) [] =
      (.err cfg true (.invalidLongOpt w), [.fatal (.invalidLongOpt w)]) := rfl

theorem parseLoop_pending (cfg : AppConfig) (p : Pending) (w : List Char)
    (rest : List (List Char)) :
    parseLoop cfg (some p) (w :: rest) =
      (match applyPending cfg p w with
       | .cont cfg2 evs => ((parseLoop cfg2 none rest).1, evs ++ (parseLoop cfg2 none rest).2)
       | .halt r evs => (r, evs)) := rfl

theorem parseLoop_empty_word (cfg : AppConfig) (rest : List (List Char)) :
    parseLoop cfg none ([] :: rest) = parseLoop cfg none rest := rfl

theorem parseLoop_single_dash (cfg : AppConfig) (rest : List (List Char)) :
    parseLoop cfg none (['-'] :: rest) = parseLoop cfg none rest := rfl

theorem parseLoop_ddash (cfg : AppConfig) (rest : List (List Char)) :
    parseLoop cfg none (['-', '-'] :: rest) = (.ok cfg, []) := rfl

theorem parseLoop_long_eq (cfg : AppConfig) (c : Char) (cs : List Char)
    (rest : List (List Char)) :
    parseLoop cfg none (('-' :: '-' :: c :: cs) :: rest) =
      (match matchLongOpt (splitEq (c :: cs)).1 with
       | some tname =>
         match (splitEq (c :: cs)).2 with
         | some v =>
           match longOpt cfg tname v with
           | .cont cfg2 evs =>
             ((parseLoop cfg2 none rest).1, evs ++ (parseLoop cfg2 none rest).2)
           | .halt r evs => (r, evs)
         | none => parseLoop cfg (some (.long tname ('-' :: '-' :: c :: cs))) rest
       | none =>
         (.err cfg true (.invalidLongOpt ('-' :: '-' :: c :: cs)),
          [.fatal (.invalidLongOpt ('-' :: '-' :: c :: cs))])) := rfl

theorem parseLoop_opt_eq (cfg : AppConfig) (c : Char) (ct : List Char)
    (rest : List (List Char)) :
    parseLoop cfg none (('-' :: c :: ct) :: rest) =
      (if c = '-' then parseLoop cfg none (('-' :: '-' :: ct) :: rest)
       else
        if c = 'p' ∨ c = 'v' ∨ c = 'J' then
          match ct with
          | _ :: _ =>
            match shortOpt cfg c ct with
            | .cont cfg2 evs =>
              ((parseLoop cfg2 none rest).1, evs ++ (parseLoop cfg2 none rest).2)
            | .halt r evs => (r, evs)
          | [] => parseLoop cfg (some (.short c)) rest
        else
          (.err cfg true (.invalidOptChar c), [.fatal (.invalidOptChar c)])) := rfl

theorem parseLoop_nonopt (cfg : AppConfig) (c : Char) (cs : List Char)
    (rest : List (List Char)) (h : ¬c = '-') :
    parseLoop cfg none ((c :: cs) :: rest) = parseLoop cfg none rest := by
  cases cs with
  | nil =>
    have h0 : parseLoop cfg none ([c] :: rest) =
        (if c = '-' then parseLoop cfg none rest else parseLoop cfg none rest) := rfl
    rw [h0, if_neg h]
  | cons c1 ct =>
    have h0 : parseLoop cfg none ((c :: c1 :: ct) :: rest) =
        (if c = '-' then parseLoop cfg none (('-' :: c1 :: ct) :: rest)
         else parseLoop cfg none rest) := rfl
    rw [h0, if_neg h]

/-! ### Invariant: every write event carries a validated value -/

theorem applyPending_gating (cfg : AppConfig) (p : Pending) (w : List Char) :
    ∀ e ∈ stepEvents (applyPending cfg p w), gatingProp e := by
  cases p with
  | short c => exact shortOpt_gating cfg c w
  | long name word => exact longOpt_gating cfg name w

theorem parse_events_gating (cfg : AppConfig) (pending : Option Pending)
    (args : List (List Char)) : ∀ e ∈ (parseLoop cfg pending args).2, gatingProp e := by
  induction cfg, pending, args using parseLoop.induct with
  | case1 cfg => intro e he; simp [parseLoop_nil_none] at he
  | case2 cfg c =>
    intro e he
    simp only [parseLoop_nil_short, List.mem_singleton] at he
    subst he; trivial
  | case3 cfg name w =>
    intro e he
    simp only [parseLoop_nil_long, List.mem_singleton] at he
    subst he; trivial
  | case4 cfg w rest p cfg2 evs happly ih =>
    intro e he
    rw [parseLoop_pending] at he
    simp only [happly] at he
    rcases List.mem_append.mp he with hm | hm
    · exact applyPending_gating cfg p w e (by rw [happly]; exact hm)
    · exact ih e hm
  | case5 cfg w rest p r evs happly =>
    intro e he
    rw [parseLoop_pending] at he
    simp only [happly] at he
    exact applyPending_gating cfg p w e (by rw [happly]; exact he)
  | case6 cfg rest ih => intro e he; rw [parseLoop_empty_word] at he; exact ih e he
  | case7 cfg rest ih => intro e he; rw [parseLoop_single_dash] at he; exact ih e he
  | case8 cfg rest => intro e he; simp [parseLoop_ddash] at he
  | case9 cfg rest c cs tname optv cfg2 evs hlong hmatch hsplit ih =>
    intro e he
    rw [parseLoop_long_eq] at he
    simp only [hmatch, hsplit, hlong] at he
    rcases List.mem_append.mp he with hm | hm
    · exact longOpt_gating cfg tname optv e (by rw [hlong]; exact hm)
    · exact ih e hm
  | case10 cfg rest c cs tname optv r evs hlong hmatch hsplit =>
    intro e he
    rw [parseLoop_long_eq] at he
    simp only [hmatch, hsplit, hlong] at he
    exact longOpt_gating cfg tname optv e (by rw [hlong]; exact he)
  | case11 cfg rest c cs tname hmatch hsplit ih =>
    intro e he
    rw [parseLoop_long_eq] at he
    simp only [hmatch, hsplit] at he
    exact ih e he
  | case12 cfg rest c cs hmatch =>
    intro e he
    rw [parseLoop_long_eq] at he
    simp only [hmatch, List.mem_singleton] at he
    subst he; trivial
  | case13 cfg rest c hcd hc head tail cfg2 evs hshort ih =>
    intro e he
    rw [parseLoop_opt_eq, if_neg hcd, if_pos hc] at he
    simp only [hshort] at he
    rcases List.mem_append.mp he with hm | hm
    · exact shortOpt_gating cfg c (head :: tail) e (by rw [hshort]; exact hm)
    · exact ih e hm
  | case14 cfg rest c hcd hc head tail r evs hshort =>
    intro e he
    rw [parseLoop_opt_eq, if_neg hcd, if_pos hc] at he
    simp only [hshort] at he
    exact shortOpt_gating cfg c (head :: tail) e (by rw [hshort]; exact he)
  | case15 cfg rest c hcd hc ih =>
    intro e he
    rw [parseLoop_opt_eq, if_neg hcd, if_pos hc] at he
    exact ih e he
  | case16 cfg rest c cs hcd hc =>
    intro e he
    rw [parseLoop_opt_eq, if_neg hcd, if_neg hc] at he
    simp only [List.mem_singleton] at he
    subst he; trivial
  | case17 cfg rest c cs hcd ih =>
    intro e he
    rw [parseLoop_nonopt cfg c cs rest hcd] at he
    exact ih e he

/-! ### The outcome trichotomy of a parse run -/

theorem applyPending_cont_nofail (cfg : AppConfig) (p : Pending) (w : List Char)
    (cfg2 : AppConfig) (evs : List PEvent) (h : applyPending cfg p w = StepOut.cont cfg2 evs) :
    ∀ e ∈ evs, isFailEvent e = false := by
  cases p with
  | short c => exact shortOpt_cont_nofail cfg c w cfg2 evs h
  | long name word => exact longOpt_cont_nofail cfg name w cfg2 evs h

theorem applyPending_halt_shape (cfg : AppConfig) (p : Pending) (w : List Char)
    (r : ParseResult) (evs : List PEvent) (h : applyPending cfg p w = StepOut.halt r evs) :
    (∃ dg, r = ParseResult.err cfg true dg ∧ evs = [PEvent.fatal dg]) ∨
      (r = ParseResult.frameErr cfg true ∧ evs = [PEvent.jRejected w] ∧
        parse_str_to_uint32t w = none) := by
  cases p with
  | short c => exact shortOpt_halt_shape cfg c w r evs h
  | long name word =>
    obtain ⟨dg, h1, h2⟩ := longOpt_halt_shape cfg name w r evs h
    exact Or.inl ⟨dg, h1, h2⟩

theorem parse_outcomes (cfg : AppConfig) (pending : Option Pending)
    (args : List (List Char)) :
    ((∃ c, (parseLoop cfg pending args).1 = ParseResult.ok c) ∧
        ∀ e ∈ (parseLoop cfg pending args).2, isFailEvent e = false)
    ∨ (∃ c dg, (parseLoop cfg pending args).1 = ParseResult.err c true dg ∧
        (parseLoop cfg pending args).2.getLast? = some (PEvent.fatal dg))
    ∨ (∃ c s, (parseLoop cfg pending args).1 = ParseResult.frameErr c true ∧
        (parseLoop cfg pending args).2.getLast? = some (PEvent.jRejected s) ∧
        parse_str_to_uint32t s = none) := by
  induction cfg, pending, args using parseLoop.induct with
  | case1 cfg => exact Or.inl ⟨⟨cfg, rfl⟩, by simp [parseLoop_nil_none]⟩
  | case2 cfg c => exact Or.inr (Or.inl ⟨cfg, _, rfl, rfl⟩)
  | case3 cfg name w => exact Or.inr (Or.inl ⟨cfg, _, rfl, rfl⟩)
  | case4 cfg w rest p cfg2 evs happly ih =>
    rw [parseLoop_pending]
    simp only [happly]
    have hnofail := applyPending_cont_nofail cfg p w cfg2 evs happly
    rcases ih with ⟨⟨c2, hok⟩, hnf⟩ | ⟨c2, dg, herr, hlast⟩ | ⟨c2, s, hfr, hlast, hps⟩
    · refine Or.inl ⟨⟨c2, hok⟩, ?_⟩
      intro e he
      rcases List.mem_append.mp he with hm | hm
      · exact hnofail e hm
      · exact hnf e hm
    · refine Or.inr (Or.inl ⟨c2, dg, herr, ?_⟩)
      rw [List.getLast?_append_of_ne_nil]
      · exact hlast
      · intro h0; rw [h0] at hlast; cases hlast
    · refine Or.inr (Or.inr ⟨c2, s, hfr, ?_, hps⟩)
      rw [List.getLast?_append_of_ne_nil]
      · exact hlast
      · intro h0; rw [h0] at hlast; cases hlast
  | case5 cfg w rest p r evs happly =>
    rw [parseLoop_pending]
    simp only [happly]
    rcases applyPending_halt_shape cfg p w r evs happly with ⟨dg, hr, hevs⟩ | ⟨hr, hevs, hps⟩
    · subst hr; subst hevs; exact Or.inr (Or.inl ⟨cfg, dg, rfl, rfl⟩)
    · subst hr; subst hevs; exact Or.inr (Or.inr ⟨cfg, w, rfl, rfl, hps⟩)
  | case6 cfg rest ih => rw [parseLoop_empty_word]; exact ih
  | case7 cfg rest ih => rw [parseLoop_single_dash]; exact ih
  | case8 cfg rest => rw [parseLoop_ddash]; exact Or.inl ⟨⟨cfg, rfl⟩, by simp⟩
  | case9 cfg rest c cs tname optv cfg2 evs hlong hmatch hsplit ih =>
    rw [parseLoop_long_eq]
    simp only [hmatch, hsplit, hlong]
    have hnofail := longOpt_cont_nofail cfg tname optv cfg2 evs hlong
    rcases ih with ⟨⟨c2, hok⟩, hnf⟩ | ⟨c2, dg, herr, hlast⟩ | ⟨c2, s, hfr, hlast, hps⟩
    · refine Or.inl ⟨⟨c2, hok⟩, ?_⟩
      intro e he
      rcases List.mem_append.mp he with hm | hm
      · exact hnofail e hm
      · exact hnf e hm
    · refine Or.inr (Or.inl ⟨c2, dg, herr, ?_⟩)
      rw [List.getLast?_append_of_ne_nil]
      · exact hlast
      · intro h0; rw [h0] at hlast; cases hlast
    · refine Or.inr (Or.inr ⟨c2, s, hfr, ?_, hps⟩)
      rw [List.getLast?_append_of_ne_nil]
      · exact hlast
      · intro h0; rw [h0] at hlast; cases hlast
  | case10 cfg rest c cs tname optv r evs hlong hmatch hsplit =>
    rw [parseLoop_long_eq]
    simp only [hmatch, hsplit, hlong]
    obtain ⟨dg, hr, hevs⟩ := longOpt_halt_shape cfg tname optv r evs hlong
    subst hr; subst hevs
    exact Or.inr (Or.inl ⟨cfg, dg, rfl, rfl⟩)
  | case11 cfg rest c cs tname hmatch hsplit ih =>
    rw [parseLoop_long_eq]
    simp only [hmatch, hsplit]
    exact ih
  | case12 cfg rest c cs hmatch =>
    rw [parseLoop_long_eq]
    simp only [hmatch]
    exact Or.inr (Or.inl ⟨cfg, _, rfl, rfl⟩)
  | case13 cfg rest c hcd hc head tail cfg2 evs hshort ih =>
    rw [parseLoop_opt_eq, if_neg hcd, if_pos hc]
    simp only [hshort]
    have hnofail := shortOpt_cont_nofail cfg c (head :: tail) cfg2 evs hshort
    rcases ih with ⟨⟨c2, hok⟩, hnf⟩ | ⟨c2, dg, herr, hlast⟩ | ⟨c2, s, hfr, hlast, hps⟩
    · refine Or.inl ⟨⟨c2, hok⟩, ?_⟩
      intro e he
      rcases List.mem_append.mp he with hm | hm
      · exact hnofail e hm
      · exact hnf e hm
    · refine Or.inr (Or.inl ⟨c2, dg, herr, ?_⟩)
      rw [List.getLast?_append_of_ne_nil]
      · exact hlast
      · intro h0; rw [h0] at hlast; cases hlast
    · refine Or.inr (Or.inr ⟨c2, s, hfr, ?_, hps⟩)
      rw [List.getLast?_append_of_ne_nil]
      · exact hlast
      · intro h0; rw [h0] at hlast; cases hlast
  | case14 cfg rest c hcd hc head tail r evs hshort =>
    rw [parseLoop_opt_eq, if_neg hcd, if_pos hc]
    simp only [hshort]
    rcases shortOpt_halt_shape cfg c (head :: tail) r evs hshort with
      ⟨dg, hr, hevs⟩ | ⟨hr, hevs, hps⟩
    · subst hr; subst hevs; exact Or.inr (Or.inl ⟨cfg, dg, rfl, rfl⟩)
    · subst hr; subst hevs
      exact Or.inr (Or.inr ⟨cfg, head :: tail, rfl, rfl, hps⟩)
  | case15 cfg rest c hcd hc ih =>
    rw [parseLoop_opt_eq, if_neg hcd, if_pos hc]
    exact ih
  | case16 cfg rest c cs hcd hc =>
    rw [parseLoop_opt_eq, if_neg hcd, if_neg hc]
    exact Or.inr (Or.inl ⟨cfg, _, rfl, rfl⟩)
  | case17 cfg rest c cs hcd ih =>
    rw [parseLoop_nonopt cfg c cs rest hcd]
    exact ih

/-! ### Single-option run lemmas -/

theorem run_p (dflt : Nat) (s : List Char) :
    ovdk_args_parse_app_args dflt [['-', 'p'], s] =
      (match parse_portmask s with
       | some v => (ParseResult.ok { initConfig dflt with port_mask := v }, [PEvent.setPortMask s v])
       | none =>
         (ParseResult.err (initConfig dflt) true (.invalidOptionSpecified 'p'),
          [PEvent.fatal (.invalidOptionSpecified 'p')])) := by
  have h0 : ovdk_args_parse_app_args dflt [['-', 'p'], s] =
      (match shortOpt (initConfig dflt) 'p' s with
       | .cont cfg2 evs => (ParseResult.ok cfg2, evs ++ [])
       | .halt r evs => (r, evs)) := rfl
  rw [h0]
  cases hres : parse_portmask s with
  | some v => simp [shortOpt, hres]
  | none => simp [shortOpt, hres]

theorem run_v (dflt : Nat) (s : List Char) :
    ovdk_args_parse_app_args dflt [['-', 'v'], s] =
      (match parse_log_level s with
       | some v => (ParseResult.ok { initConfig dflt with log_level := v }, [PEvent.setLogLevel s v])
       | none =>
         (ParseResult.err (initConfig dflt) true (.invalidLogLevel s),
          [PEvent.fatal (.invalidLogLevel s)])) := by
  have h0 : ovdk_args_parse_app_args dflt [['-', 'v'], s] =
      (match shortOpt (initConfig dflt) 'v' s with
       | .cont cfg2 evs => (ParseResult.ok cfg2, evs ++ [])
       | .halt r evs => (r, evs)) := rfl
  rw [h0]
  cases hres : parse_log_level s with
  | some v => simp [shortOpt, hres]
  | none => simp [shortOpt, hres]

theorem run_J (dflt : Nat) (s : List Char) :
    ovdk_args_parse_app_args dflt [['-', 'J'], s] =
      (match parse_str_to_uint32t s with
       | some v =>
         (ParseResult.ok { initConfig dflt with max_frame_size := v }, [PEvent.setMaxFrameSize s v])
       | none => (ParseResult.frameErr (initConfig dflt) true, [PEvent.jRejected s])) := by
  have h0 : ovdk_args_parse_app_args dflt [['-', 'J'], s] =
      (match shortOpt (initConfig dflt) 'J' s with
       | .cont cfg2 evs => (ParseResult.ok cfg2, evs ++ [])
       | .halt r evs => (r, evs)) := rfl
  rw [h0]
  cases hres : parse_str_to_uint32t s with
  | some v => simp [shortOpt, hres]
  | none => simp [shortOpt, hres]

/-! ### Rejection characterizations of the three validators -/

theorem parse_str_to_uint32t_none (s : List Char)
    (h : s = [] ∨ (strtoul 10 s).1 = 0 ∨ (strtoul 10 s).2 ≠ []) :
    parse_str_to_uint32t s = none := by
  rcases h with rfl | h
  · rfl
  · by_cases hs : s = []
    · subst hs; rfl
    · simp only [parse_str_to_uint32t, if_neg hs]
      rw [if_pos]
      rcases h with h | h
      · right; exact h
      · left; exact h

theorem parse_log_level_none (s : List Char)
    (h : s = [] ∨ (strtoul 10 s).1 = 0 ∨ (strtoul 10 s).1 > 8 ∨ (strtoul 10 s).2 ≠ []) :
    parse_log_level s = none := by
  rcases h with rfl | h
  · rfl
  · by_cases hs : s = []
    · subst hs; rfl
    · simp only [parse_log_level, if_neg hs]
      rw [if_pos]
      rcases h with h | h | h
      · right; left; exact h
      · right; right; unfold RTE_LOG_DEBUG; exact h
      · left; exact h

theorem parse_portmask_none (t : List Char) (h : t = [] ∨ (strtoul 16 t).2 ≠ []) :
    parse_portmask t = none := by
  simp only [parse_portmask]
  rw [if_pos h]

theorem parse_portmask_hex (s : List Char) (hhex : isHexStr s = true) :
    parse_portmask s =
      some (if digitsFold 16 s ≤ ULONG_MAX then digitsFold 16 s else ULONG_MAX) := by
  have hne : s ≠ [] := by
    intro h0
    rw [h0] at hhex
    exact absurd hhex (by decide)
  have hall : ∀ c ∈ s, (digitVal 16 c).isSome = true := by
    intro c hc
    have := (Bool.and_eq_true _ _).mp hhex
    exact (List.all_eq_true.mp this.2) c hc
  have hs := strtoul_digits 16 (Or.inr rfl) s hne hall
  simp only [parse_portmask, hs]
  rw [if_neg (by simp [hne])]
  simp [applySign, digitsFold]

/-! ### Claim theorems -/

theorem run_J_decStr (dflt n : Nat) (hn : 0 < n) (hfit : n ≤ ULONG_MAX) :
    (ovdk_args_parse_app_args dflt [['-', 'J'], decStr n]).1 =
      ParseResult.ok { initConfig dflt with max_frame_size := n % 2 ^ 32 } := by
  rw [run_J, parse_str_to_uint32t_decStr n hn hfit]

/-- C1 (amended): for every `n > 0` that fits in `unsigned long`, `-J`
with the decimal string for `n` succeeds and sets `max_frame_size` to
`n mod 2 ^ 32` (equal to `n` exactly when `n < 2 ^ 32`, the narrowing of
the claim's original "sets it to n"); for argument strings denoting zero,
non-numeric strings (an unconsumed suffix remains), or the empty string,
parse returns the negative validation error `-1` — not a process
termination — and `max_frame_size` keeps its previous value `dflt`. -/
theorem claim_C1 (dflt n : Nat) (hn : 0 < n) (hfit : n ≤ ULONG_MAX) :
    (ovdk_args_parse_app_args dflt [['-', 'J'], decStr n]).1 =
      ParseResult.ok { initConfig dflt with max_frame_size := n % 2 ^ 32 } ∧
    ∀ s : List Char,
      s = [] ∨ (strtoul 10 s).1 = 0 ∨ (strtoul 10 s).2 ≠ [] →
      (ovdk_args_parse_app_args dflt [['-', 'J'], s]).1 =
          ParseResult.frameErr (initConfig dflt) true ∧
        retOf (ovdk_args_parse_app_args dflt [['-', 'J'], s]).1 = some (-1) ∧
        ovdk_args_get_max_frame_size
          (resultConfig (ovdk_args_parse_app_args dflt [['-', 'J'], s]).1) = dflt := by
  refine ⟨run_J_decStr dflt n hn hfit, ?_⟩
  intro s hs
  rw [run_J, parse_str_to_uint32t_none s hs]
  exact ⟨rfl, rfl, rfl⟩

theorem claim_C1_witness :
    (ovdk_args_parse_app_args 2048 [['-', 'J'], decStr 9000]).1 =
      ParseResult.ok { initConfig 2048 with max_frame_size := 9000 % 2 ^ 32 } ∧
    (ovdk_args_parse_app_args 2048 [['-', 'J'], "0".toList]).1 =
      ParseResult.frameErr (initConfig 2048) true :=
  ⟨(claim_C1 2048 9000 (by decide) (by decide)).1,
   ((claim_C1 2048 9000 (by decide) (by decide)).2 "0".toList (by decide)).1⟩

/-- C1 (counterexample to the claim as stated): the decimal string for
`2 ^ 32 = 4294967296` is accepted by `-J` (the zero test is applied before
the narrowing), but `max_frame_size` becomes `0`, not `2 ^ 32`. -/
theorem claim_C1_counterexample :
    decStr (2 ^ 32) = "4294967296".toList ∧
    (ovdk_args_parse_app_args 2048 [['-', 'J'], decStr (2 ^ 32)]).1 =
      ParseResult.ok { port_mask := 0, log_level := RTE_LOG_ERR, stats_interval := 0,
                       stats_core := -1, max_frame_size := 0 } ∧
    (0 : Nat) ≠ 2 ^ 32 :=
  ⟨by decide, by decide, by decide⟩

/-- C2 (amended): for every valid (nonempty, all-hex-digit) hexadecimal
string `s`, `-p s` succeeds and sets `port_mask` to the base-16 value of
`s` clamped to `ULONG_MAX` (the value itself whenever it is at most
`2 ^ 64 - 1`, as `strtoul` saturates on overflow); for every string that is
empty or leaves an unconsumed non-hex suffix, parse fails fatally (usage is
printed and the process terminates with the portmask diagnostic). -/
theorem claim_C2 (dflt : Nat) (s : List Char) (hhex : isHexStr s = true) :
    (ovdk_args_parse_app_args dflt [['-', 'p'], s]).1 =
      ParseResult.ok { initConfig dflt with
        port_mask := if digitsFold 16 s ≤ ULONG_MAX then digitsFold 16 s else ULONG_MAX } ∧
    ∀ t : List Char, t = [] ∨ (strtoul 16 t).2 ≠ [] →
      (ovdk_args_parse_app_args dflt [['-', 'p'], t]).1 =
        ParseResult.err (initConfig dflt) true (.invalidOptionSpecified 'p') := by
  constructor
  · rw [run_p, parse_portmask_hex s hhex]
  · intro t ht
    rw [run_p, parse_portmask_none t ht]

theorem claim_C2_witness :
    (ovdk_args_parse_app_args 2048 [['-', 'p'], "f".toList]).1 =
      ParseResult.ok { initConfig 2048 with
        port_mask := if digitsFold 16 "f".toList ≤ ULONG_MAX then digitsFold 16 "f".toList
                     else ULONG_MAX } ∧
    (ovdk_args_parse_app_args 2048 [['-', 'p'], "fg".toList]).1 =
      ParseResult.err (initConfig 2048) true (.invalidOptionSpecified 'p') :=
  ⟨(claim_C2 2048 "f".toList (by decide)).1,
   (claim_C2 2048 "f".toList (by decide)).2 "fg".toList (by decide)⟩

/-- C2 (counterexample to the claim as stated): the 17-digit hexadecimal
string `10000000000000000` (value `2 ^ 64`) is a valid hex string, but
`port_mask` is set to the saturated `ULONG_MAX = 2 ^ 64 - 1`, not to the
numeric value `2 ^ 64`. -/
theorem claim_C2_counterexample :
    isHexStr "10000000000000000".toList = true ∧
    digitsFold 16 "10000000000000000".toList = 2 ^ 64 ∧
    (resultConfig (ovdk_args_parse_app_args 2048
        [['-', 'p'], "10000000000000000".toList]).1).port_mask = 2 ^ 64 - 1 ∧
    (2 ^ 64 - 1 : Nat) ≠ 2 ^ 64 :=
  ⟨by decide, by decide, by decide, by decide⟩

/-- C3: for every `n` in `[1, 8]`, `-v` with the decimal string for `n`
succeeds and sets `log_level` to `n`; for an argument denoting `0`, a value
greater than `8`, a non-numeric string (unconsumed suffix) or the empty
string, parse fails fatally (usage printed, log-level diagnostic) and
`log_level` keeps its default `RTE_LOG_ERR`. -/
theorem claim_C3 (dflt n : Nat) (h1 : 1 ≤ n) (h2 : n ≤ 8) :
    (ovdk_args_parse_app_args dflt [['-', 'v'], decStr n]).1 =
      ParseResult.ok { initConfig dflt with log_level := n } ∧
    ∀ s : List Char,
      s = [] ∨ (strtoul 10 s).1 = 0 ∨ (strtoul 10 s).1 > 8 ∨ (strtoul 10 s).2 ≠ [] →
      (ovdk_args_parse_app_args dflt [['-', 'v'], s]).1 =
          ParseResult.err (initConfig dflt) true (.invalidLogLevel s) ∧
        ovdk_args_get_log_level
          (resultConfig (ovdk_args_parse_app_args dflt [['-', 'v'], s]).1) = RTE_LOG_ERR := by
  constructor
  · rw [run_v, parse_log_level_decStr n h1 h2]
  · intro s hs
    rw [run_v, parse_log_level_none s hs]
    exact ⟨rfl, rfl⟩

theorem claim_C3_witness :
    (ovdk_args_parse_app_args 2048 [['-', 'v'], decStr 3]).1 =
      ParseResult.ok { initConfig 2048 with log_level := 3 } ∧
    (ovdk_args_parse_app_args 2048 [['-', 'v'], "9".toList]).1 =
      ParseResult.err (initConfig 2048) true (.invalidLogLevel "9".toList) :=
  ⟨(claim_C3 2048 3 (by decide) (by decide)).1,
   ((claim_C3 2048 3 (by decide) (by decide)).2 "9".toList (by decide)).1⟩

/-- C4: the parse returns its success indicator `0` exactly on the runs
that exhaust the argument vector without any failure (no `rte_exit` and no
frame-size rejection); every non-success outcome is either a process
termination carrying one of the four fatal diagnostics (bad portmask, bad
log level, unrecognized option, missing required argument — the
constructors of `FatalDiag`) and no return value, or the propagated
negative return `-1`, which arises only from a frame-size argument that
`parse_str_to_uint32t` rejected. -/
theorem claim_C4 (dflt : Nat) (args : List (List Char)) :
    ((∃ c, (ovdk_args_parse_app_args dflt args).1 = ParseResult.ok c) ∧
        retOf (ovdk_args_parse_app_args dflt args).1 = some 0 ∧
        ∀ e ∈ (ovdk_args_parse_app_args dflt args).2, isFailEvent e = false)
    ∨ (∃ c dg, (ovdk_args_parse_app_args dflt args).1 = ParseResult.err c true dg ∧
        retOf (ovdk_args_parse_app_args dflt args).1 = none ∧
        (ovdk_args_parse_app_args dflt args).2.getLast? = some (PEvent.fatal dg))
    ∨ (∃ c s, (ovdk_args_parse_app_args dflt args).1 = ParseResult.frameErr c true ∧
        retOf (ovdk_args_parse_app_args dflt args).1 = some (-1) ∧
        (ovdk_args_parse_app_args dflt args).2.getLast? = some (PEvent.jRejected s) ∧
        parse_str_to_uint32t s = none) := by
  unfold ovdk_args_parse_app_args
  rcases parse_outcomes (initConfig dflt) none args with
    ⟨⟨c, hok⟩, hnf⟩ | ⟨c, dg, herr, hlast⟩ | ⟨c, s, hfr, hlast, hps⟩
  · exact Or.inl ⟨⟨c, hok⟩, by rw [hok]; rfl, hnf⟩
  · exact Or.inr (Or.inl ⟨c, dg, herr, by rw [herr]; rfl, hlast⟩)
  · exact Or.inr (Or.inr ⟨c, s, hfr, by rw [hfr]; rfl, hlast, hps⟩)

/-- C5 (amended): every value written into a configuration field during a
parse run is exactly the value produced by that field's own validator on
the recorded option argument — `parse_portmask` for `port_mask`,
`parse_log_level` for `log_level`, `parse_str_to_uint32t` for
`max_frame_size`, and the never-failing `atoi` conversion for
`stats_interval` / `stats_core` — so no field is written on a rejection
branch and no field is partially updated.  (The original "at most once"
transition does not hold when an option is repeated; see the
counterexample.) -/
theorem claim_C5 (dflt : Nat) (args : List (List Char)) (e : PEvent)
    (he : e ∈ (ovdk_args_parse_app_args dflt args).2) : gatingProp e := by
  unfold ovdk_args_parse_app_args at he
  exact parse_events_gating (initConfig dflt) none args e he

theorem claim_C5_witness :
    PEvent.setPortMask "f".toList 15 ∈
      (ovdk_args_parse_app_args 2048 [['-', 'p'], "f".toList]).2 ∧
    gatingProp (PEvent.setPortMask "f".toList 15) :=
  ⟨by decide, claim_C5 2048 [['-', 'p'], "f".toList] _ (by decide)⟩

/-- C5 (counterexample to the claim as stated): on
`-p 1 -p 0 -p 2` the `port_mask` field is written three times, with value
sequence `0, 1, 0, 2` from its default `0`, so it moves from its default
to a set value twice — not at most once. -/
theorem claim_C5_counterexample :
    pmValues (ovdk_args_parse_app_args 2048
        [['-', 'p'], ['1'], ['-', 'p'], ['0'], ['-', 'p'], ['2']]).2 = [1, 0, 2] ∧
    countLeaveDefault 0 (0 :: pmValues (ovdk_args_parse_app_args 2048
        [['-', 'p'], ['1'], ['-', 'p'], ['0'], ['-', 'p'], ['2']]).2) = 2 ∧
    (2 : Nat) ≠ 1 :=
  ⟨by decide, by decide, by decide⟩

/-- C6: the `--stats_int` and `--stats_core` options accept every argument
string — the permissive `atoi` conversion (zero on a non-numeric prefix,
trailing characters ignored) unconditionally overwrites `stats_interval`
respectively `stats_core`; `--stats_int 5` yields `stats_interval = 5`,
`--stats_core 2` yields `stats_core = 2`, and omitting them leaves the
defaults `0` and `-1`. -/
theorem claim_C6 (dflt : Nat) (s : List Char) :
    (ovdk_args_parse_app_args dflt ["--stats_int".toList, s]).1 =
      ParseResult.ok { initConfig dflt with stats_interval := atoi s } ∧
    (ovdk_args_parse_app_args dflt ["--stats_core".toList, s]).1 =
      ParseResult.ok { initConfig dflt with stats_core := atoi s } ∧
    atoi "5".toList = 5 ∧
    (resultConfig (ovdk_args_parse_app_args dflt
        ["--stats_int".toList, "5".toList]).1).stats_interval = 5 ∧
    atoi "2".toList = 2 ∧
    (resultConfig (ovdk_args_parse_app_args dflt
        ["--stats_core".toList, "2".toList]).1).stats_core = 2 ∧
    (ovdk_args_parse_app_args dflt []).1 = ParseResult.ok (initConfig dflt) ∧
    (initConfig dflt).stats_interval = 0 ∧
    (initConfig dflt).stats_core = -1 ∧
    atoi "abc".toList = 0 ∧
    atoi "12x".toList = 12 :=
  ⟨rfl, rfl, rfl, rfl, rfl, rfl, rfl, rfl, rfl, rfl, rfl⟩

/-- C7: an unrecognized option — any short flag other than `p`, `v`, `J`
(for example `-z`), or any `--`-word whose name matches neither long
option, not even as a glibc abbreviation (`matchLongOpt` finds no table
entry it is a prefix of) — and any recognized option missing its required
argument cause a fatal process termination with the usage text printed
(the `true` flag) and a diagnostic naming the offending option: a short
option by its character (`optopt`), a long option by the offending word
itself. -/
theorem claim_C7 (dflt : Nat) (c : Char) (hp : c ≠ 'p') (hv : c ≠ 'v') (hJ : c ≠ 'J')
    (hd : c ≠ '-') (nm : List Char) (hnm : nm ≠ [])
    (hunknown : matchLongOpt (splitEq nm).1 = none) :
    (ovdk_args_parse_app_args dflt [['-', c]]).1 =
      ParseResult.err (initConfig dflt) true (.invalidOptChar c) ∧
    (ovdk_args_parse_app_args dflt ['-' :: '-' :: nm]).1 =
      ParseResult.err (initConfig dflt) true (.invalidLongOpt ('-' :: '-' :: nm)) ∧
    (ovdk_args_parse_app_args dflt [['-', 'p']]).1 =
      ParseResult.err (initConfig dflt) true (.invalidOptChar 'p') ∧
    (ovdk_args_parse_app_args dflt [['-', 'v']]).1 =
      ParseResult.err (initConfig dflt) true (.invalidOptChar 'v') ∧
    (ovdk_args_parse_app_args dflt [['-', 'J']]).1 =
      ParseResult.err (initConfig dflt) true (.invalidOptChar 'J') ∧
    (ovdk_args_parse_app_args dflt ["--stats_int".toList]).1 =
      ParseResult.err (initConfig dflt) true (.invalidLongOpt "--stats_int".toList) ∧
    (ovdk_args_parse_app_args dflt ["--stats_core".toList]).1 =
      ParseResult.err (initConfig dflt) true (.invalidLongOpt "--stats_core".toList) ∧
    (ovdk_args_parse_app_args dflt [['-', 'z']]).1 =
      ParseResult.err (initConfig dflt) true (.invalidOptChar 'z') := by
  refine ⟨?_, ?_, rfl, rfl, rfl, rfl, rfl, rfl⟩
  · unfold ovdk_args_parse_app_args
    rw [parseLoop_opt_eq, if_neg hd, if_neg (by rintro (h | h | h) <;> contradiction)]
  · obtain ⟨x, nm2, rfl⟩ := List.exists_cons_of_ne_nil hnm
    unfold ovdk_args_parse_app_args
    rw [parseLoop_long_eq]
    simp only [hunknown]

theorem claim_C7_witness :
    (ovdk_args_parse_app_args 2048 [['-', 'z']]).1 =
      ParseResult.err (initConfig 2048) true (.invalidOptChar 'z') ∧
    (ovdk_args_parse_app_args 2048 ['-' :: '-' :: "zzz".toList]).1 =
      ParseResult.err (initConfig 2048) true (.invalidLongOpt ('-' :: '-' :: "zzz".toList)) :=
  ⟨(claim_C7 2048 'z' (by decide) (by decide) (by decide) (by decide) "zzz".toList
      (by decide) (by decide)).1,
   (claim_C7 2048 'z' (by decide) (by decide) (by decide) (by decide) "zzz".toList
      (by decide) (by decide)).2.1⟩

/-- C8: on the argument vector `-p f -v 3 --stats_int 10` the parse
succeeds, and the accessors return `port_mask = 15`, `log_level = 3`,
`stats_interval = 10`, `stats_core = -1` (the default) and
`max_frame_size` equal to the compiled-in default `dflt`. -/
theorem claim_C8 (dflt : Nat) :
    (ovdk_args_parse_app_args dflt
        ["-p".toList, "f".toList, "-v".toList, "3".toList,
         "--stats_int".toList, "10".toList]).1 =
      ParseResult.ok { port_mask := 15, log_level := 3, stats_interval := 10,
                       stats_core := -1, max_frame_size := dflt } ∧
    ovdk_args_get_portmask (resultConfig (ovdk_args_parse_app_args dflt
        ["-p".toList, "f".toList, "-v".toList, "3".toList,
         "--stats_int".toList, "10".toList]).1) = 15 ∧
    ovdk_args_get_log_level (resultConfig (ovdk_args_parse_app_args dflt
        ["-p".toList, "f".toList, "-v".toList, "3".toList,
         "--stats_int".toList, "10".toList]).1) = 3 ∧
    ovdk_args_get_stats_interval (resultConfig (ovdk_args_parse_app_args dflt
        ["-p".toList, "f".toList, "-v".toList, "3".toList,
         "--stats_int".toList, "10".toList]).1) = 10 ∧
    ovdk_args_get_stats_core (resultConfig (ovdk_args_parse_app_args dflt
        ["-p".toList, "f".toList, "-v".toList, "3".toList,
         "--stats_int".toList, "10".toList]).1) = -1 ∧
    ovdk_args_get_max_frame_size (resultConfig (ovdk_args_parse_app_args dflt
        ["-p".toList, "f".toList, "-v".toList, "3".toList,
         "--stats_int".toList, "10".toList]).1) = dflt :=
  ⟨rfl, rfl, rfl, rfl, rfl, rfl⟩

/-- C9: the frame-size conversion narrows the 64-bit `strtoul` result
unchecked: for every `-J` argument of decimal value `v` with `0 < v` that
fits in `unsigned long`, the conversion succeeds and stores `v mod 2 ^ 32`;
in particular `4294967296` (`2 ^ 32`) is accepted — the zero test is applied
to the pre-truncation value — and sets `max_frame_size` to `0`, even though
the argument `0` itself is rejected. -/
theorem claim_C9 (dflt v : Nat) (h1 : 0 < v) (h2 : v ≤ ULONG_MAX) :
    (ovdk_args_parse_app_args dflt [['-', 'J'], decStr v]).1 =
      ParseResult.ok { initConfig dflt with max_frame_size := v % 2 ^ 32 } ∧
    decStr (2 ^ 32) = "4294967296".toList ∧
    parse_str_to_uint32t "4294967296".toList = some 0 ∧
    (ovdk_args_parse_app_args dflt [['-', 'J'], "4294967296".toList]).1 =
      ParseResult.ok { initConfig dflt with max_frame_size := 0 } ∧
    parse_str_to_uint32t "0".toList = none ∧
    (ovdk_args_parse_app_args dflt [['-', 'J'], "0".toList]).1 =
      ParseResult.frameErr (initConfig dflt) true :=
  ⟨run_J_decStr dflt v h1 h2, by decide, by decide, rfl, by decide, rfl⟩

theorem claim_C9_witness :
    (ovdk_args_parse_app_args 2048 [['-', 'J'], decStr (2 ^ 32)]).1 =
      ParseResult.ok { initConfig 2048 with max_frame_size := 2 ^ 32 % 2 ^ 32 } :=
  (claim_C9 2048 (2 ^ 32) (by decide) (by decide)).1

/-- C10: portmask parsing inherits the full `strtoul` base-16 grammar —
leading whitespace, an optional sign, and an optional `0x`/`0X` prefix are
accepted whenever nothing remains after the converted number; in
particular `-1` is accepted and sets `port_mask` to `2 ^ 64 - 1` (the
negation reduced modulo `2 ^ 64`), and `0x10` is accepted and sets
`port_mask` to `16`. -/
theorem claim_C10 (dflt : Nat) (s : List Char) (hne : s ≠ [])
    (hall : (strtoul 16 s).2 = []) :
    (ovdk_args_parse_app_args dflt [['-', 'p'], s]).1 =
      ParseResult.ok { initConfig dflt with port_mask := (strtoul 16 s).1 } ∧
    strtoul 16 "-1".toList = (2 ^ 64 - 1, []) ∧
    (ovdk_args_parse_app_args dflt [['-', 'p'], "-1".toList]).1 =
      ParseResult.ok { initConfig dflt with port_mask := 2 ^ 64 - 1 } ∧
    strtoul 16 "0x10".toList = (16, []) ∧
    (ovdk_args_parse_app_args dflt [['-', 'p'], "0x10".toList]).1 =
      ParseResult.ok { initConfig dflt with port_mask := 16 } ∧
    (ovdk_args_parse_app_args dflt [['-', 'p'], " f".toList]).1 =
      ParseResult.ok { initConfig dflt with port_mask := 15 } := by
  refine ⟨?_, by decide, rfl, by decide, rfl, rfl⟩
  have hpm : parse_portmask s = some (strtoul 16 s).1 := by
    simp only [parse_portmask]
    rw [if_neg (by simp [hne, hall])]
  rw [run_p, hpm]

theorem claim_C10_witness :
    (ovdk_args_parse_app_args 2048 [['-', 'p'], "-1".toList]).1 =
      ParseResult.ok { initConfig 2048 with port_mask := (strtoul 16 "-1".toList).1 } :=
  (claim_C10 2048 "-1".toList (by decide) (by decide)).1

/-- Abbreviation matching, validated on the inputs glibc accepts: the
non-exact name `stats_c` is a prefix of `stats_core` only, so
`--stats_c=5` sets `stats_core` to 5 and the parse returns 0. -/
theorem abbrev_stats_c (dflt : Nat) :
    matchLongOpt "stats_c".toList = some PARAM_STATS_CORE ∧
    ovdk_args_parse_app_args dflt ["--stats_c=5".toList] =
      (ParseResult.ok { initConfig dflt with stats_core := 5 },
       [PEvent.setStatsCore "5".toList 5]) :=
  ⟨rfl, rfl⟩

/-- Abbreviation matching: `stats_i` is a prefix of `stats_int` only, so
`--stats_i 7` sets `stats_interval` to 7. -/
theorem abbrev_stats_i (dflt : Nat) :
    matchLongOpt "stats_i".toList = some PARAM_STATS_INTERVAL ∧
    ovdk_args_parse_app_args dflt ["--stats_i".toList, "7".toList] =
      (ParseResult.ok { initConfig dflt with stats_interval := 7 },
       [PEvent.setStatsInterval "7".toList 7]) :=
  ⟨rfl, rfl⟩

/-- Abbreviation matching: `stats_` is a prefix of both table names; the
entries agree in `has_arg`, `flag` and `val`, so glibc raises no ambiguity
error and takes the first match, `stats_int`. -/
theorem abbrev_stats_common (dflt : Nat) :
    matchLongOpt "stats_".toList = some PARAM_STATS_INTERVAL ∧
    ovdk_args_parse_app_args dflt ["--stats_".toList, "3".toList] =
      (ParseResult.ok { initConfig dflt with stats_interval := 3 },
       [PEvent.setStatsInterval "3".toList 3]) :=
  ⟨rfl, rfl⟩

/-- A name that abbreviates neither entry (here `stats_q`) is an unknown
long option. -/
theorem abbrev_unknown : matchLongOpt "stats_q".toList = none := rfl
